import Mathlib

/-!
Verification development for the ai-rules repository.

The definitions below are shallow embeddings of the TypeScript sources:
* `RuleVersionManager` (rule version management and deployment service),
* `RuleUpdateQueue` (Bull-queue based rule update processing),
* `QueueService` (background job queue service),
* `SchedulerService` (node-cron based scheduling service),
* `NotificationService` (WebSocket notification service),
* `TrendAnalyzer` (technology trend analysis service).

File-system state is modelled as an explicit `Store` record; the file
operations performed by a call are returned as an explicit trace of `FsOp`
values.  Timestamps are passed in as explicit parameters (the sources read
the ambient clock with `new Date()` / `Date.now()`).
-/

namespace AiRules

/-- A single history entry, `RuleHistoryEntry` from types/services.ts. -/
structure RuleHistoryEntry where
  version : String
  date : String
  author : String
  changes : List String
  filePath : String
deriving DecidableEq

/-- The deployment metadata record written by
`RuleVersionManager.updateDeploymentMetadata`. -/
structure DeploymentInfo where
  ruleType : String
  currentVersion : String
  lastDeployment : String
  contentLength : Nat
  checksum : Int
  deploymentCount : Nat
deriving DecidableEq

/-- A file in the archive directory; `mtime` is the modification time used by
`cleanupOldArchives`. -/
structure ArchiveFile where
  name : String
  content : String
  mtime : Nat
deriving DecidableEq

/-- The durable state touched by `RuleVersionManager`: the active rule
directory, the archive directory, and the metadata directory (history and
deployment JSON files, keyed by rule type). -/
structure Store where
  rules : List (String × String)
  archiveFiles : List ArchiveFile
  history : List (String × List RuleHistoryEntry)
  deployments : List (String × DeploymentInfo)
deriving DecidableEq

/-- A file-system operation performed by the service.  The source uses
`writeFile` and imports `rename` from fs/promises; traces record which of the
two a code path actually performs. -/
inductive FsOp where
  | write (path : String) (content : String)
  | rename (src : String) (dst : String)
deriving DecidableEq

/-- Whether an operation is a rename. -/
def FsOp.isRename : FsOp → Bool
  | .write _ _ => false
  | .rename _ _ => true

/-- Association-list lookup with propositional string equality. -/
def getVal {α : Type} (k : String) : List (String × α) → Option α
  | [] => none
  | (k', v) :: rest => if k' = k then some v else getVal k rest

/-- Association-list update (replace or append). -/
def setVal {α : Type} (k : String) (v : α) : List (String × α) → List (String × α)
  | [] => [(k, v)]
  | (k', v') :: rest => if k' = k then (k, v) :: rest else (k', v') :: setVal k v rest

/-- Directory constants from config/environment.ts. -/
def ruleBasePath : String := "rules"

/-- Archive directory constant from config/environment.ts. -/
def archiveDirPath : String := "archive"

/-- Metadata directory constant from config/environment.ts. -/
def metadataDirPath : String := "metadata"

/-- `join` from path. -/
def joinPath (dir file : String) : String := dir ++ "/" ++ file

/-- JavaScript `String.prototype.startsWith`, expressed on the character
sequence of the strings. -/
def strStartsWith (s pre : String) : Bool :=
  pre.toList.isPrefixOf s.toList

/-- JavaScript `String.prototype.endsWith`, expressed on the character
sequence of the strings. -/
def strEndsWith (s post : String) : Bool :=
  post.toList.reverse.isPrefixOf s.toList.reverse

/-- `RuleVersionManager.getRuleFilePath`: standardize rule file naming. -/
def getRuleFilePath (ruleType : String) : String :=
  let filename := if strEndsWith ruleType ".md" then ruleType else ruleType ++ ".md"
  joinPath ruleBasePath filename

/-- `RuleVersionManager.addVersionHeader`: the header prepended to deployed
content.  `now` stands for `new Date().toISOString()`. -/
def addVersionHeader (content version ruleType now : String) : String :=
  "<!-- Rule Version: " ++ version ++ " -->\n" ++
  "<!-- Generated: " ++ now ++ " -->\n" ++
  "<!-- Type: " ++ ruleType ++ " -->\n" ++
  "<!-- AI Rules Management System -->\n\n" ++ content

/-- JavaScript `ToInt32`: reduce an integer to the signed 32-bit range, as the
`& 0xffffffff` and `<<` operators do in the source. -/
def toInt32 (n : Int) : Int :=
  let m := n.emod 4294967296
  if m < 2147483648 then m else m - 4294967296

/-- One step of `RuleVersionManager.calculateChecksum`:
`checksum = ((checksum << 5) - checksum + content.charCodeAt(i)) & 0xffffffff`. -/
def checksumStep (acc : Int) (c : Char) : Int :=
  toInt32 (toInt32 (acc * 32) - acc + (c.toNat : Int))

/-- `RuleVersionManager.calculateChecksum` (the hex rendering of the final
value is immaterial here; the 32-bit value itself is kept). -/
def calculateChecksum (content : String) : Int :=
  content.toList.foldl checksumStep 0

/-- Serialization stand-in for `JSON.stringify` on a history entry. -/
def serializeEntry (e : RuleHistoryEntry) : String :=
  e.version ++ "|" ++ e.date ++ "|" ++ e.author ++ "|" ++
    String.intercalate "," e.changes ++ "|" ++ e.filePath

/-- Serialization stand-in for `JSON.stringify` on a history file. -/
def serializeHistory (h : List RuleHistoryEntry) : String :=
  String.intercalate ";" (h.map serializeEntry)

/-- Serialization stand-in for `JSON.stringify` on deployment metadata. -/
def serializeDeployment (d : DeploymentInfo) : String :=
  d.ruleType ++ "|" ++ d.currentVersion ++ "|" ++ d.lastDeployment ++ "|" ++
    toString d.contentLength ++ "|" ++ toString d.checksum ++ "|" ++
    toString d.deploymentCount

/-- Metadata history file path: `join(config.project.metadataPath,
ruleType + "-history.json")`. -/
def historyFilePath (ruleType : String) : String :=
  joinPath metadataDirPath (ruleType ++ "-history.json")

/-- Deployment metadata file path. -/
def deploymentFilePath (ruleType : String) : String :=
  joinPath metadataDirPath (ruleType ++ "-deployment.json")

/-- `RuleVersionManager.updateRuleMetadata`: load the history, append one new
entry, keep only the last 50 entries, save.  Returns the new store and the
write trace. -/
def updateRuleMetadata (ruleType version archivedAt archiveFile reason : String)
    (s : Store) : Store × List FsOp :=
  let history := (getVal ruleType s.history).getD []
  let newEntry : RuleHistoryEntry :=
    { version := version
      date := archivedAt
      author := "AI Rules Management System"
      changes := ["Archived rule with reason: " ++ reason]
      filePath := archiveFile }
  let history1 := history ++ [newEntry]
  let history2 := if history1.length > 50 then history1.drop (history1.length - 50)
                  else history1
  ({ s with history := setVal ruleType history2 s.history },
   [FsOp.write (historyFilePath ruleType) (serializeHistory history2)])

/-- `RuleVersionManager.getDeploymentCount`. -/
def getDeploymentCount (ruleType : String) (s : Store) : Nat :=
  match getVal ruleType s.deployments with
  | none => 0
  | some d => d.deploymentCount

/-- `RuleVersionManager.updateDeploymentMetadata`. -/
def updateDeploymentMetadata (ruleType version deployedAt : String)
    (contentLength : Nat) (checksum : Int) (s : Store) : Store × List FsOp :=
  let info : DeploymentInfo :=
    { ruleType := ruleType
      currentVersion := version
      lastDeployment := deployedAt
      contentLength := contentLength
      checksum := checksum
      deploymentCount := getDeploymentCount ruleType s + 1 }
  ({ s with deployments := setVal ruleType info s.deployments },
   [FsOp.write (deploymentFilePath ruleType) (serializeDeployment info)])

/-- `RuleVersionManager.archiveCurrentRule`: if the current rule file does not
exist the archive is skipped; otherwise the current content is copied to a
timestamped archive file and one history entry is recorded.  `t` stands for
the current time (used both for the timestamp string and the archive file
mtime). -/
def archiveCurrentRule (ruleType version : String) (t : Nat) (s : Store) :
    Store × List FsOp :=
  let currentRulePath := getRuleFilePath ruleType
  match getVal currentRulePath s.rules with
  | none => (s, [])
  | some currentContent =>
    let archiveFileName := ruleType ++ "-" ++ version ++ "-" ++ toString t ++ ".md"
    let archivePath := joinPath archiveDirPath archiveFileName
    let s1 : Store :=
      { s with archiveFiles :=
          s.archiveFiles ++ [{ name := archiveFileName, content := currentContent, mtime := t }] }
    let p :=
      updateRuleMetadata ruleType version (toString t) archiveFileName
        "scheduled_update" s1
    (p.1, FsOp.write archivePath currentContent :: p.2)

/-- `RuleVersionManager.deployNewRule`: prepend the version header, write the
content to the active rule path, then update the deployment metadata. -/
def deployNewRule (ruleType content version : String) (t : Nat) (s : Store) :
    Store × List FsOp :=
  let rulePath := getRuleFilePath ruleType
  let versionedContent := addVersionHeader content version ruleType (toString t)
  let s1 : Store := { s with rules := setVal rulePath versionedContent s.rules }
  let p :=
    updateDeploymentMetadata ruleType version (toString t)
      versionedContent.length (calculateChecksum versionedContent) s1
  (p.1, FsOp.write rulePath versionedContent :: p.2)

/-- The archive-then-deploy sequence as performed by the callers
(`QueueService.processRuleGeneration` and the `generate-rules` processor):
`archiveCurrentRule` followed by `deployNewRule`. -/
def archiveThenDeploy (ruleType content version : String) (t : Nat) (s : Store) :
    Store × List FsOp :=
  let p1 := archiveCurrentRule ruleType version t s
  let p2 := deployNewRule ruleType content version t p1.1
  (p2.1, p1.2 ++ p2.2)

/-- The history list stored for a rule type (`getRuleHistory` returns this
list sorted by date; the entry multiset is the stored one). -/
def historyFor (ruleType : String) (s : Store) : List RuleHistoryEntry :=
  (getVal ruleType s.history).getD []

/-- The empty store. -/
def emptyStore : Store :=
  { rules := [], archiveFiles := [], history := [], deployments := [] }

/-- `RuleVersionManager.cleanupOldArchives`: iterate over the archive
directory counting `.md` files whose mtime is older than the cutoff.  The
deletion itself is commented out in the source (the loop only logs the files
that would be deleted), so the store is returned unchanged and only the
would-delete count is produced. -/
def cleanupOldArchives (cutoff : Nat) (s : Store) : Store × Nat :=
  let deletedCount := s.archiveFiles.foldl
    (fun n f =>
      if !(strEndsWith f.name ".md") then n
      else if f.mtime < cutoff then n + 1 else n) 0
  (s, deletedCount)

/-- Error raised by `rollbackToVersion` when no archive file matches:
`Archive not found for ... version ...` (the `VersionNotFound` failure of the
spec error taxonomy). -/
inductive RollbackError where
  | versionNotFound
deriving DecidableEq

/-- The archive-file matcher used by `rollbackToVersion`:
`file.startsWith(ruleType + "-" + version + "-") && file.endsWith(".md")`. -/
def archiveMatches (ruleType version : String) (file : String) : Bool :=
  strStartsWith file (ruleType ++ "-" ++ version ++ "-") && strEndsWith file ".md"

/-- Content of an archive file by name. -/
def getArchiveContent (name : String) (s : Store) : Option String :=
  match s.archiveFiles.find? (fun f => f.name = name) with
  | none => none
  | some f => some f.content

/-- `RuleVersionManager.rollbackToVersion`: find the archive for the target
version; if none exists, throw before performing any write.  Otherwise
archive the current rule as a rollback backup, copy the archived content to
the active rule path and record the rollback in the history metadata. -/
def rollbackToVersion (ruleType version : String) (t : Nat) (s : Store) :
    Store × List FsOp × Option RollbackError :=
  let archiveNames := s.archiveFiles.map (fun f => f.name)
  match archiveNames.find? (archiveMatches ruleType version) with
  | none => (s, [], some RollbackError.versionNotFound)
  | some targetArchive =>
    let rollbackBackupVersion := "rollback-backup-" ++ toString t
    let p1 := archiveCurrentRule ruleType rollbackBackupVersion t s
    let archivedContent := (getArchiveContent targetArchive p1.1).getD ""
    let rulePath := getRuleFilePath ruleType
    let s2 : Store := { p1.1 with rules := setVal rulePath archivedContent p1.1.rules }
    let p3 :=
      updateRuleMetadata ruleType (version ++ "-rollback") (toString t)
        targetArchive "manual_rollback" s2
    (p3.1, p1.2 ++ [FsOp.write rulePath archivedContent] ++ p3.2, none)

/-- A sequence of archive-then-deploy operations for a fixed rule type; each
element of the list supplies the content, version and time of one deploy. -/
def deploySeq (ruleType : String) : List (String × String × Nat) → Store → Store
  | [], s => s
  | (content, version, t) :: rest, s =>
    deploySeq ruleType rest (archiveThenDeploy ruleType content version t s).1

/-! ### Job retry model (RuleUpdateQueue, part_009) -/

/-- Bull job states as observed by the retry handler. -/
inductive JobStatus where
  | queued | active | completed | failed | delayed
deriving DecidableEq

/-- The observable state of one rule-update job as it moves through the Bull
queue: `attemptsMade` is incremented by the queue each time the processor
runs, `retryDelays` records the backoff delays scheduled by the failure
handler, and `alertsEmitted` counts failure alerts sent to observers (the
failure handler only writes a console log, so this is never incremented). -/
structure JobRun where
  attemptsMade : Nat
  status : JobStatus
  retryDelays : List Nat
  alertsEmitted : Nat
deriving DecidableEq

/-- The `failed` event handler of `RuleUpdateQueue.setupEventHandlers`:
`const attempts = job.attemptsMade; if (attempts < 3) job.retry(Math.pow(2,
attempts) * 1000)`.  No alert is emitted and nothing further happens when the
attempt budget is exhausted. -/
def onFailedHandler (j : JobRun) : JobRun :=
  let attempts := j.attemptsMade
  if attempts < 3 then
    { j with status := JobStatus.delayed
             retryDelays := j.retryDelays ++ [2 ^ attempts * 1000] }
  else j

/-- Dispatch loop for a single job: each list element is the outcome of one
processor invocation (`true` = the processor returns, `false` = it throws).
A throw fires the `failed` event handler; if that handler retried the job,
the next outcome is consumed, otherwise the job stays `failed`. -/
def runJob : List Bool → JobRun → JobRun
  | [], j => j
  | outcome :: rest, j =>
    let j1 : JobRun := { j with attemptsMade := j.attemptsMade + 1
                                status := JobStatus.active }
    if outcome then { j1 with status := JobStatus.completed }
    else
      let j2 := onFailedHandler { j1 with status := JobStatus.failed }
      if j2.status = JobStatus.delayed then
        runJob rest { j2 with status := JobStatus.queued }
      else j2

/-- A freshly enqueued job. -/
def initialJob : JobRun :=
  { attemptsMade := 0, status := JobStatus.queued, retryDelays := [],
    alertsEmitted := 0 }

/-! ### Scheduler model (SchedulerService.scheduleTask, part_007) -/

/-- The per-task record kept by `SchedulerService` (`ScheduledTask`), plus
`activeFirings`, the number of callback invocations whose `await
taskFunction()` has not completed yet. -/
structure TaskState where
  enabled : Bool
  runCount : Nat
  errorCount : Nat
  activeFirings : Nat
deriving DecidableEq

/-- Events hitting one scheduled task: a cron tick invoking the callback, or
the completion of one previously started handler invocation. -/
inductive SchedEvent where
  | tick | handlerDone
deriving DecidableEq

/-- One step of the cron callback installed by
`SchedulerService.scheduleTask`.  On a tick the callback checks only the
`enabled` flag — there is no in-flight guard — and otherwise increments
`runCount` and starts the handler.  `handlerDone` retires one in-flight
handler invocation. -/
def stepSched (s : TaskState) : SchedEvent → TaskState
  | SchedEvent.tick =>
    if !s.enabled then s
    else { s with runCount := s.runCount + 1, activeFirings := s.activeFirings + 1 }
  | SchedEvent.handlerDone =>
    { s with activeFirings := s.activeFirings - 1 }

/-- Run a sequence of scheduler events. -/
def runSched (s : TaskState) (events : List SchedEvent) : TaskState :=
  events.foldl stepSched s

/-- A task as registered by `scheduleTask`: enabled, never run. -/
def initTask : TaskState :=
  { enabled := true, runCount := 0, errorCount := 0, activeFirings := 0 }

/-! ### Queue dispatch model (RuleUpdateQueue enqueue policy, part_009) -/

/-- `priorityHint` values of a rule-update job. -/
inductive PriorityHint where
  | low | medium | high
deriving DecidableEq

/-- `updateType` values of a rule-update job. -/
inductive UpdateType where
  | major | minor | emergency
deriving DecidableEq

/-- `RuleUpdateJob` from part_009. -/
structure RuleUpdateJob where
  technology : String
  priority : PriorityHint
  updateType : UpdateType
deriving DecidableEq

/-- The Bull priority number assigned by `scheduleRuleUpdate`:
`priority === high ? 1 : priority === medium ? 2 : 3`. -/
def rulePriorityNumber : PriorityHint → Nat
  | PriorityHint.high => 1
  | PriorityHint.medium => 2
  | PriorityHint.low => 3

/-- A job sitting in the shared `rule updates` Bull queue: its payload, the
Bull priority option it was enqueued with, its retry budget, and its arrival
sequence number. -/
structure QueuedJob where
  data : RuleUpdateJob
  priority : Nat
  attempts : Nat
  seq : Nat
deriving DecidableEq

/-- `RuleUpdateQueue.scheduleRuleUpdate`: enqueue a `major` update with the
priority number derived from the hint and 3 attempts. -/
def scheduleRuleUpdate (technology : String) (priority : PriorityHint)
    (seq : Nat) : QueuedJob :=
  { data := { technology := technology, priority := priority,
              updateType := UpdateType.major }
    priority := rulePriorityNumber priority
    attempts := 3
    seq := seq }

/-- `RuleUpdateQueue.scheduleEmergencyUpdate`: enqueue an `emergency` update
with priority 1 (highest), 5 attempts and no delay. -/
def scheduleEmergencyUpdate (technology : String) (seq : Nat) : QueuedJob :=
  { data := { technology := technology, priority := PriorityHint.high,
              updateType := UpdateType.emergency }
    priority := 1
    attempts := 5
    seq := seq }

/-- Bull dispatch order on a single queue: a job is dispatched before another
iff it has a smaller priority number, or the same priority number and an
earlier arrival (FIFO within a priority level). -/
def DispatchBefore (a b : QueuedJob) : Prop :=
  a.priority < b.priority ∨ (a.priority = b.priority ∧ a.seq < b.seq)

instance (a b : QueuedJob) : Decidable (DispatchBefore a b) := by
  unfold DispatchBefore
  infer_instance

/-- The next job Bull dispatches from a set of waiting jobs: the minimum in
the dispatch order (head of the list wins ties that agree on priority and
sequence number). -/
def pickNext : List QueuedJob → Option QueuedJob
  | [] => none
  | j :: rest =>
    match pickNext rest with
    | none => some j
    | some a => if DispatchBefore a j then some a else some j

/-! ### Update-priority scoring (TrendAnalyzer.calculateUpdatePriority) -/

/-- The sub-signal volumes feeding `calculateUpdatePriority`:
`githubTrends.totalRepos`, `stackOverflowTrends.totalQuestions`,
`packageTrends.weeklyGrowth` (a percentage, possibly negative) and the number
of flagged breaking changes in `documentationChanges`. -/
structure TrendsInput where
  totalRepos : Nat
  totalQuestions : Nat
  weeklyGrowth : Int
  breakingChangesCount : Nat
deriving DecidableEq

/-- `TrendAnalyzer.calculateUpdatePriority`, translated line by line: the
GitHub factor (weight 0.3, ceiling 10000) and Stack Overflow factor (weight
0.2, ceiling 1000) are added only when their volume is positive; the package
growth factor (weight 0.3, ceiling 20 percent, floored at 0) and the breaking
changes factor (weight 0.2, boosted to 1 when any breaking change is flagged,
otherwise 0.2) are always added; the total is divided by the accumulated
weights and capped at 1, defaulting to 0.3 when no factor accumulated. -/
def calculateUpdatePriority (t : TrendsInput) : ℚ :=
  let p1 : ℚ := if t.totalRepos > 0
    then min ((t.totalRepos : ℚ) / 10000) 1 * (3/10) else 0
  let f1 : ℚ := if t.totalRepos > 0 then 3/10 else 0
  let p2 : ℚ := if t.totalQuestions > 0
    then p1 + min ((t.totalQuestions : ℚ) / 1000) 1 * (2/10) else p1
  let f2 : ℚ := if t.totalQuestions > 0 then f1 + 2/10 else f1
  let growthFactor : ℚ := max 0 (min ((t.weeklyGrowth : ℚ) / 20) 1)
  let p3 : ℚ := p2 + growthFactor * (3/10)
  let f3 : ℚ := f2 + 3/10
  let breakingChangesFactor : ℚ := if t.breakingChangesCount > 0 then 1 else 2/10
  let p4 : ℚ := p3 + breakingChangesFactor * (2/10)
  let f4 : ℚ := f3 + 2/10
  if f4 > 0 then min (p4 / f4) 1 else 3/10

/-- The documented reference formula, written from the words of the spec: a
weighted sum of the available normalized sub-signals divided by the sum of
the weights of the available signals (missing signals contribute 0 to both),
clamped to the interval from 0 to 1, with the flat neutral score 0.3 when no
signal is available.  In the code the activity and discussion signals are
missing exactly when their volume is 0, while the growth and breaking-change
signals are always present in the input record. -/
def specUpdatePriority (t : TrendsInput) : ℚ :=
  let activityAvailable := t.totalRepos > 0
  let discussionAvailable := t.totalQuestions > 0
  let num : ℚ :=
    (if activityAvailable then (3/10) * min ((t.totalRepos : ℚ) / 10000) 1 else 0)
    + (if discussionAvailable then (2/10) * min ((t.totalQuestions : ℚ) / 1000) 1 else 0)
    + (3/10) * max 0 (min ((t.weeklyGrowth : ℚ) / 20) 1)
    + (2/10) * (if t.breakingChangesCount > 0 then 1 else 2/10)
  let den : ℚ :=
    (if activityAvailable then (3/10 : ℚ) else 0)
    + (if discussionAvailable then (2/10 : ℚ) else 0)
    + 3/10 + 2/10
  if den = 0 then 3/10 else max 0 (min (num / den) 1)

/-! ### Job processors (part_009 setupProcessors and
QueueService.processRuleGeneration) -/

/-- `triggeredBy` values of `JobData` from types/services.ts. -/
inductive TriggeredBy where
  | schedule | manual | emergency
deriving DecidableEq

/-- `JobData` from types/services.ts, the payload of QueueService jobs. -/
structure JobData where
  technology : String
  priority : PriorityHint
  updateType : UpdateType
  context : Option String
  triggeredBy : TriggeredBy
deriving DecidableEq

/-- Result summary of one processor run: whether the job completed, whether
an artifact update was performed, and whether the result was the
below-threshold skip message. -/
structure ProcessOutcome where
  success : Bool
  updated : Bool
  skippedBelowThreshold : Bool
deriving DecidableEq

/-- Mutations of the artifact store requested by a processor run. -/
inductive ArtifactAction where
  | archiveAction (ruleType : String)
  | deployAction (ruleType : String)
deriving DecidableEq

/-- The `generate-rules` processor of `RuleUpdateQueue.setupProcessors`
(successful-generation path): analyze trends, then — when the update type is
not `emergency` and the computed `updatePriority` is below 0.3 — return the
`No significant changes detected` result without touching the artifact;
otherwise generate, archive the current rule and deploy the new one. -/
def processGenerateRules (job : RuleUpdateJob) (updatePriority : ℚ) :
    ProcessOutcome × List ArtifactAction :=
  let rt := job.technology ++ "-best-practices"
  if job.updateType ≠ UpdateType.emergency ∧ updatePriority < 3/10 then
    ({ success := true, updated := false, skippedBelowThreshold := true }, [])
  else
    ({ success := true, updated := true, skippedBelowThreshold := false },
     [ArtifactAction.archiveAction rt, ArtifactAction.deployAction rt])

/-- `QueueService.processRuleGeneration` (successful-generation path): the
processor analyzes trends but never inspects the resulting priority score or
the trigger source — it always archives the current rule and deploys the new
one.  The `updatePriority` argument is the score computed by the trend
analysis; the body ignores it, exactly as the source does. -/
def processRuleGenerationQS (job : JobData) (_updatePriority : ℚ) :
    ProcessOutcome × List ArtifactAction :=
  let rt := job.technology ++ "-best-practices"
  ({ success := true, updated := true, skippedBelowThreshold := false },
   [ArtifactAction.archiveAction rt, ArtifactAction.deployAction rt])

/-! ### Notification subscriptions (NotificationService, part_008) -/

/-- The fixed channel set offered by `NotificationService`. -/
def validChannels : List String :=
  ["general", "rule-updates", "trend-analysis", "emergency-alerts", "system-status"]

/-- `Set.add` on the subscription set: append only when absent. -/
def addChannel (subs : List String) (c : String) : List String :=
  if c ∈ subs then subs else subs ++ [c]

/-- `NotificationService.handleSubscription`: add each requested channel that
is in the valid set; unknown channels are silently ignored. -/
def handleSubscription (subs channels : List String) : List String :=
  channels.foldl (fun s c => if c ∈ validChannels then addChannel s c else s) subs

/-- `NotificationService.handleUnsubscription`: remove each requested
channel, then re-add `general` when the set became empty. -/
def handleUnsubscription (subs channels : List String) : List String :=
  let s := channels.foldl (fun s c => s.erase c) subs
  if s.isEmpty then ["general"] else s

/-- A subscription-related client message. -/
inductive SubMsg where
  | subscribe (channels : List String)
  | unsubscribe (channels : List String)

/-- Apply one client message to the subscription set. -/
def applySubMsg (subs : List String) : SubMsg → List String
  | SubMsg.subscribe cs => handleSubscription subs cs
  | SubMsg.unsubscribe cs => handleUnsubscription subs cs

/-- Apply a sequence of client messages. -/
def applySubMsgs (msgs : List SubMsg) (subs : List String) : List String :=
  msgs.foldl applySubMsg subs

/-- The subscription set of a freshly connected client (default `general`
subscription). -/
def initialSubs : List String := ["general"]

/-- The invariant maintained on every subscription set: non-empty,
duplicate-free, and a subset of the valid channels. -/
def SubsInvariant (subs : List String) : Prop :=
  subs ≠ [] ∧ subs.Nodup ∧ ∀ c ∈ subs, c ∈ validChannels

end AiRules

namespace AiRules

theorem getVal_setVal {α : Type} (k : String) (v : α) (l : List (String × α)) :
    getVal k (setVal k v l) = some v := by
  induction l with
  | nil => simp [getVal, setVal]
  | cons hd tl ih =>
    obtain ⟨k', v'⟩ := hd
    by_cases h : k' = k <;> simp [getVal, setVal, h, ih]

/-- C1: `deployNewRule` performs plain writes only: it writes the versioned
content directly to the active rule path and never performs a rename.  There
is no staging location and no atomic swap — the active file is edited in
place, contradicting the write-new-then-rename claim. -/
theorem deployNewRule_writes_active_in_place
    (ruleType content version : String) (t : Nat) (s : Store) :
    ((deployNewRule ruleType content version t s).2.all
        (fun op => !op.isRename)) = true
    ∧ FsOp.write (getRuleFilePath ruleType)
        (addVersionHeader content version ruleType (toString t))
        ∈ (deployNewRule ruleType content version t s).2 := by
  constructor
  · simp [deployNewRule, updateDeploymentMetadata, FsOp.isRename]
  · simp [deployNewRule, updateDeploymentMetadata]

/-- C9: `cleanupOldArchives` never deletes anything: the store (archive files
and active artifacts alike) is unchanged by every call, and repeated calls
return the same result — the operation only counts the `.md` archive files
older than the cutoff. -/
theorem cleanupOldArchives_deletes_nothing (cutoff : Nat) (s : Store) :
    (cleanupOldArchives cutoff s).1 = s
    ∧ cleanupOldArchives cutoff (cleanupOldArchives cutoff s).1 =
        cleanupOldArchives cutoff s := by
  constructor
  · rfl
  · rfl

/-- C2 counterexample: a job whose processor fails three times ends dead with
3 recorded attempts, but `alertsEmitted` is 0 — the failed-event handler
never emits a failure alert, contradicting the claim that exactly one failure
alert is emitted when a job is marked dead. -/
theorem dead_job_emits_no_alert :
    runJob [false, false, false] initialJob =
      { attemptsMade := 3, status := JobStatus.failed,
        retryDelays := [2000, 4000], alertsEmitted := 0 } := by
  decide

/-- C2 (amended): on every processor failure, if `attemptsMade < 3` the job
is re-enqueued after a delay of `1000 * 2 ^ attemptsMade` milliseconds;
otherwise the failed-event handler leaves the job dead and emits no alert.
Consequently a job that fails twice and then succeeds ends completed after 3
attempts, and one that fails three times ends dead with exactly 3 recorded
attempts, backoff delays 2000 and 4000 ms, and zero alerts. -/
theorem ruleUpdateQueue_retry_policy :
    (∀ j : JobRun, j.attemptsMade < 3 →
        onFailedHandler j =
          { j with status := JobStatus.delayed
                   retryDelays := j.retryDelays ++ [2 ^ j.attemptsMade * 1000] })
    ∧ (∀ j : JobRun, 3 ≤ j.attemptsMade → onFailedHandler j = j)
    ∧ runJob [false, false, true] initialJob =
        { attemptsMade := 3, status := JobStatus.completed,
          retryDelays := [2000, 4000], alertsEmitted := 0 }
    ∧ runJob [false, false, false] initialJob =
        { attemptsMade := 3, status := JobStatus.failed,
          retryDelays := [2000, 4000], alertsEmitted := 0 } := by
  refine ⟨?_, ?_, by decide, by decide⟩
  · intro j h
    simp [onFailedHandler, h]
  · intro j h
    simp [onFailedHandler, Nat.not_lt.mpr h]

/-- Witness for the retry policy at concrete jobs: one retried after its
first failure with a 2000 ms delay, one left dead after its third. -/
theorem ruleUpdateQueue_retry_policy_witness :
    onFailedHandler { attemptsMade := 1, status := JobStatus.failed,
                      retryDelays := [2000], alertsEmitted := 0 } =
      { attemptsMade := 1, status := JobStatus.delayed,
        retryDelays := [2000, 2000], alertsEmitted := 0 }
    ∧ onFailedHandler { attemptsMade := 3, status := JobStatus.failed,
                        retryDelays := [2000, 4000], alertsEmitted := 0 } =
      { attemptsMade := 3, status := JobStatus.failed,
        retryDelays := [2000, 4000], alertsEmitted := 0 } := by
  constructor
  · have h := ruleUpdateQueue_retry_policy.1
      { attemptsMade := 1, status := JobStatus.failed,
        retryDelays := [2000], alertsEmitted := 0 } (by decide)
    simpa using h
  · exact ruleUpdateQueue_retry_policy.2.1
      { attemptsMade := 3, status := JobStatus.failed,
        retryDelays := [2000, 4000], alertsEmitted := 0 } (by decide)

/-- C4: the cron callback installed by `SchedulerService.scheduleTask` checks
only the `enabled` flag before starting the handler — every tick of an
enabled task starts a new invocation regardless of how many are already in
flight, so two ticks before the first handler completes leave two overlapping
active firings (and `runCount = 2`): the second firing is executed, not
skipped. -/
theorem schedulerService_overlapping_firings :
    (∀ r e n : Nat,
        stepSched { enabled := true, runCount := r, errorCount := e,
                    activeFirings := n } SchedEvent.tick =
          { enabled := true, runCount := r + 1, errorCount := e,
            activeFirings := n + 1 })
    ∧ runSched initTask [SchedEvent.tick, SchedEvent.tick] =
        { enabled := true, runCount := 2, errorCount := 0, activeFirings := 2 } := by
  constructor
  · intro r e n
    rfl
  · decide

/-- C5 counterexample: a high-priority generation job (Bull priority 1)
enqueued before an emergency job (also priority 1) is dispatched first —
while the emergency job is queued, a generation job picks up work, because
FIFO order breaks the priority tie. -/
theorem generation_dispatched_before_emergency :
    pickNext [scheduleRuleUpdate "python" PriorityHint.high 0,
              scheduleEmergencyUpdate "java" 1] =
      some (scheduleRuleUpdate "python" PriorityHint.high 0)
    ∧ (scheduleRuleUpdate "python" PriorityHint.high 0).data.updateType ≠
        UpdateType.emergency := by
  constructor
  · decide
  · decide

theorem pickNext_mem :
    ∀ (q : List QueuedJob) (a : QueuedJob), pickNext q = some a → a ∈ q := by
  intro q
  induction q with
  | nil => intro a h; simp [pickNext] at h
  | cons j rest ih =>
    intro a h
    cases hp : pickNext rest with
    | none =>
      simp [pickNext, hp] at h
      simp [h]
    | some b =>
      by_cases hd : DispatchBefore b j
      · simp [pickNext, hp, hd] at h
        subst h
        exact List.mem_cons_of_mem _ (ih b hp)
      · simp [pickNext, hp, hd] at h
        simp [h]

theorem dispatchBefore_asymm {a b : QueuedJob} (h : DispatchBefore a b) :
    ¬ DispatchBefore b a := by
  unfold DispatchBefore at *
  omega

theorem pickNext_eq_of_min (e : QueuedJob) :
    ∀ q : List QueuedJob, e ∈ q → (∀ j ∈ q, j ≠ e → DispatchBefore e j) →
      pickNext q = some e := by
  intro q
  induction q with
  | nil =>
    intro h
    exact absurd h (List.not_mem_nil e)
  | cons j rest ih =>
    intro hmem hall
    by_cases hje : j = e
    · subst hje
      cases hp : pickNext rest with
      | none => simp [pickNext, hp]
      | some a =>
        have ha : a ∈ rest := pickNext_mem rest a hp
        by_cases hae : a = j
        · subst hae
          simp [pickNext, hp]
        · have hea : DispatchBefore j a :=
            hall a (List.mem_cons_of_mem _ ha) hae
          simp [pickNext, hp, dispatchBefore_asymm hea]
    · have he : e ∈ rest := by
        rcases List.mem_cons.mp hmem with h | h
        · exact absurd h.symm hje
        · exact h
      have hall' : ∀ x ∈ rest, x ≠ e → DispatchBefore e x :=
        fun x hx => hall x (List.mem_cons_of_mem _ hx)
      have hp := ih he hall'
      simp [pickNext, hp, hall j (List.mem_cons_self _ _) hje]

/-- C5 (amended): an emergency job is enqueued with the highest Bull priority
number (1), so whenever every generation job waiting in the shared queue has
priority number at least 2 (the `medium` and `low` hints), the emergency job
is dispatched first even when it arrived last.  Generation jobs enqueued with
the `high` hint share priority 1 and keep FIFO precedence (see the
counterexample), and the three QueueService lanes are independent Bull queues
with no cross-queue ordering at all. -/
theorem emergency_dispatched_first_when_others_lower (q : List QueuedJob)
    (e : QueuedJob) (hmem : e ∈ q) (hp : e.priority = 1)
    (hg : ∀ j ∈ q, j ≠ e → 2 ≤ j.priority) :
    pickNext q = some e := by
  apply pickNext_eq_of_min e q hmem
  intro j hj hne
  left
  rw [hp]
  exact lt_of_lt_of_le one_lt_two (hg j hj hne)

/-- Witness: an emergency job enqueued after ten medium-priority generation
jobs is dispatched before all of them. -/
theorem emergency_dispatched_first_witness :
    pickNext
      ((List.range 10).map
          (fun i => scheduleRuleUpdate "python" PriorityHint.medium i)
        ++ [scheduleEmergencyUpdate "java" 10]) =
      some (scheduleEmergencyUpdate "java" 10) := by
  apply emergency_dispatched_first_when_others_lower
  · decide
  · decide
  · decide

/-- C7 counterexample: `QueueService.processRuleGeneration` performs the
archive and deploy even for a job triggered by the schedule whose priority
score 0 is below the 0.3 minimum — it contains no priority-skip check, so
the claimed short-circuit does not happen and the artifact is mutated. -/
theorem queueService_scheduled_low_score_still_deploys :
    processRuleGenerationQS
      { technology := "python", priority := PriorityHint.medium,
        updateType := UpdateType.major, context := none,
        triggeredBy := TriggeredBy.schedule } 0 =
      ({ success := true, updated := true, skippedBelowThreshold := false },
       [ArtifactAction.archiveAction "python-best-practices",
        ArtifactAction.deployAction "python-best-practices"])
    ∧ (0 : ℚ) < 3/10 := by
  constructor
  · rfl
  · norm_num

/-- C7 (amended): the below-threshold skip lives in the `generate-rules`
processor of `RuleUpdateQueue` and is keyed on the update type, not the
trigger source: a job whose `updateType` is not `emergency` and whose
computed priority is below 0.3 short-circuits to a successful
no-significant-changes result with no artifact mutation; `emergency` update
jobs always proceed to archive and deploy.  `QueueService.processRuleGeneration`
performs no skip check at all. -/
theorem priority_skip_check_location :
    (∀ (job : RuleUpdateJob) (p : ℚ),
        job.updateType ≠ UpdateType.emergency → p < 3/10 →
        processGenerateRules job p =
          ({ success := true, updated := false, skippedBelowThreshold := true },
           []))
    ∧ (∀ (job : RuleUpdateJob) (p : ℚ), job.updateType = UpdateType.emergency →
        processGenerateRules job p =
          ({ success := true, updated := true, skippedBelowThreshold := false },
           [ArtifactAction.archiveAction (job.technology ++ "-best-practices"),
            ArtifactAction.deployAction (job.technology ++ "-best-practices")]))
    ∧ (∀ (job : JobData) (p : ℚ),
        processRuleGenerationQS job p =
          ({ success := true, updated := true, skippedBelowThreshold := false },
           [ArtifactAction.archiveAction (job.technology ++ "-best-practices"),
            ArtifactAction.deployAction (job.technology ++ "-best-practices")])) := by
  refine ⟨?_, ?_, ?_⟩
  · intro job p h1 h2
    simp [processGenerateRules, h1, h2]
  · intro job p h
    simp [processGenerateRules, h]
  · intro job p
    rfl

/-- Witness for the skip policy: a concrete `major` job with score 0.1 is
skipped with no artifact actions, and a concrete `emergency` job with score 0
proceeds to archive and deploy. -/
theorem priority_skip_check_location_witness :
    processGenerateRules
      { technology := "python", priority := PriorityHint.medium,
        updateType := UpdateType.major } (1/10) =
      ({ success := true, updated := false, skippedBelowThreshold := true }, [])
    ∧ processGenerateRules
      { technology := "java", priority := PriorityHint.high,
        updateType := UpdateType.emergency } 0 =
      ({ success := true, updated := true, skippedBelowThreshold := false },
       [ArtifactAction.archiveAction "java-best-practices",
        ArtifactAction.deployAction "java-best-practices"]) := by
  constructor
  · exact priority_skip_check_location.1 _ _ (by decide) (by norm_num)
  · exact priority_skip_check_location.2.1 _ _ rfl

theorem archiveCurrentRule_rules (rt v : String) (t : Nat) (s : Store) :
    ((archiveCurrentRule rt v t s).1).rules = s.rules := by
  cases h : getVal (getRuleFilePath rt) s.rules <;>
    simp [archiveCurrentRule, h, updateRuleMetadata]

theorem archiveCurrentRule_history_none (rt v : String) (t : Nat) (s : Store)
    (h : getVal (getRuleFilePath rt) s.rules = none) :
    ((archiveCurrentRule rt v t s).1).history = s.history := by
  simp [archiveCurrentRule, h]

theorem archiveCurrentRule_history_some (rt v : String) (t : Nat) (s : Store)
    (c : String) (h : getVal (getRuleFilePath rt) s.rules = some c) :
    (historyFor rt ((archiveCurrentRule rt v t s).1)).length =
      min ((historyFor rt s).length + 1) 50 := by
  simp only [archiveCurrentRule, h, updateRuleMetadata, historyFor]
  rw [getVal_setVal]
  simp only [Option.getD_some]
  split_ifs with hgt
  · simp only [List.length_drop, List.length_append, List.length_singleton]
    simp only [List.length_append, List.length_singleton] at hgt
    omega
  · simp only [List.length_append, List.length_singleton]
    simp only [List.length_append, List.length_singleton] at hgt
    omega

theorem deployNewRule_rules (rt c v : String) (t : Nat) (s : Store) :
    ((deployNewRule rt c v t s).1).rules =
      setVal (getRuleFilePath rt) (addVersionHeader c v rt (toString t)) s.rules := by
  simp [deployNewRule, updateDeploymentMetadata]

theorem deployNewRule_history (rt c v : String) (t : Nat) (s : Store) :
    ((deployNewRule rt c v t s).1).history = s.history := by
  simp [deployNewRule, updateDeploymentMetadata]

theorem archiveThenDeploy_step (rt c v : String) (t : Nat) (s : Store)
    (hx : (getVal (getRuleFilePath rt) s.rules).isSome) :
    (getVal (getRuleFilePath rt)
        ((archiveThenDeploy rt c v t s).1).rules).isSome
    ∧ (historyFor rt ((archiveThenDeploy rt c v t s).1)).length =
        min ((historyFor rt s).length + 1) 50 := by
  obtain ⟨cc, hcc⟩ := Option.isSome_iff_exists.mp hx
  have hstep : (archiveThenDeploy rt c v t s).1 =
      (deployNewRule rt c v t (archiveCurrentRule rt v t s).1).1 := rfl
  constructor
  · rw [hstep, deployNewRule_rules, getVal_setVal]
    rfl
  · have h1 : (historyFor rt ((archiveThenDeploy rt c v t s).1)) =
        historyFor rt ((archiveCurrentRule rt v t s).1) := by
      unfold historyFor
      rw [hstep, deployNewRule_history]
    rw [h1]
    exact archiveCurrentRule_history_some rt v t s cc hcc

theorem deploySeq_history_count (rt : String) :
    ∀ (l : List (String × String × Nat)) (s : Store),
      (getVal (getRuleFilePath rt) s.rules).isSome →
      (historyFor rt s).length ≤ 50 →
      (historyFor rt (deploySeq rt l s)).length =
        min ((historyFor rt s).length + l.length) 50 := by
  intro l
  induction l with
  | nil =>
    intro s hx hle
    simp only [deploySeq, List.length_nil, Nat.add_zero]
    omega
  | cons hd rest ih =>
    obtain ⟨c, v, t⟩ := hd
    intro s hx hle
    have hstep := archiveThenDeploy_step rt c v t s hx
    have hrec := ih ((archiveThenDeploy rt c v t s).1) hstep.1
      (by rw [hstep.2]; exact min_le_right _ _)
    have hseq : deploySeq rt ((c, v, t) :: rest) s =
        deploySeq rt rest (archiveThenDeploy rt c v t s).1 := rfl
    rw [hseq, hrec, hstep.2]
    simp only [List.length_cons, Nat.min_def]
    split_ifs <;> omega

/-- C3 counterexample: one successful archive-then-deploy from an empty store
completes the deploy (the active rule file afterwards holds the versioned new
content) yet records zero ArchiveEntry values in the history — not exactly
one per completed deploy — because `archiveCurrentRule` skips archiving when
no current rule file exists. -/
theorem first_deploy_records_no_history_entry :
    (historyFor "python-best-practices"
        ((archiveThenDeploy "python-best-practices" "new content" "2025-01" 0
            emptyStore).1)).length = 0
    ∧ getVal (getRuleFilePath "python-best-practices")
        ((archiveThenDeploy "python-best-practices" "new content" "2025-01" 0
            emptyStore).1).rules =
      some (addVersionHeader "new content" "2025-01" "python-best-practices" "0") := by
  constructor
  · rfl
  · rw [show (archiveThenDeploy "python-best-practices" "new content" "2025-01" 0
          emptyStore).1 =
        (deployNewRule "python-best-practices" "new content" "2025-01" 0
          (archiveCurrentRule "python-best-practices" "2025-01" 0 emptyStore).1).1
        from rfl]
    rw [deployNewRule_rules, getVal_setVal]
    rfl

/-- C3 (amended): after any finite sequence of successful archive-then-deploy
operations starting from an empty store, the history for the rule type
contains one ArchiveEntry per deploy that found an existing active rule —
that is, every deploy after the first — capped at the 50 most recent entries:
`n` deploys leave exactly `min (n - 1) 50` entries.  The first deploy of a
rule type records no entry, and entries beyond the newest 50 are dropped. -/
theorem archiveThenDeploy_history_count (rt : String)
    (l : List (String × String × Nat)) :
    (historyFor rt (deploySeq rt l emptyStore)).length = min (l.length - 1) 50 := by
  cases l with
  | nil => rfl
  | cons hd rest =>
    obtain ⟨c, v, t⟩ := hd
    have h0 : getVal (getRuleFilePath rt) emptyStore.rules = none := rfl
    have hstep : (archiveThenDeploy rt c v t emptyStore).1 =
        (deployNewRule rt c v t
          (archiveCurrentRule rt v t emptyStore).1).1 := rfl
    have hrules : (getVal (getRuleFilePath rt)
        ((archiveThenDeploy rt c v t emptyStore).1).rules).isSome := by
      rw [hstep, deployNewRule_rules, getVal_setVal]
      rfl
    have hhist : (historyFor rt ((archiveThenDeploy rt c v t emptyStore).1)).length
        = 0 := by
      unfold historyFor
      rw [hstep, deployNewRule_history, archiveCurrentRule_history_none rt v t _ h0]
      rfl
    have hseq : deploySeq rt ((c, v, t) :: rest) emptyStore =
        deploySeq rt rest (archiveThenDeploy rt c v t emptyStore).1 := rfl
    rw [hseq, deploySeq_history_count rt rest _ hrules (by omega), hhist]
    simp

/-- C8: when no archive file name matches the requested rule type and
version, `rollbackToVersion` fails with the version-not-found error before
performing any file operation: the store — active artifact, archives and
metadata alike — is returned unchanged and the operation trace is empty. -/
theorem rollback_unknown_version_fails_unchanged (rt v : String) (t : Nat)
    (s : Store) (h : ∀ f ∈ s.archiveFiles, archiveMatches rt v f.name = false) :
    rollbackToVersion rt v t s = (s, [], some RollbackError.versionNotFound) := by
  have hfind : (s.archiveFiles.map (fun f => f.name)).find?
      (archiveMatches rt v) = none := by
    apply List.find?_eq_none.mpr
    intro x hx
    obtain ⟨f, hf, hfx⟩ := List.mem_map.mp hx
    rw [← hfx]
    simp [h f hf]
  simp [rollbackToVersion, hfind]

/-- Witness: rolling back `java-best-practices` to the absent version
`2024-07` over a store holding only a `2024-06` archive fails with
version-not-found and leaves the store untouched. -/
theorem rollback_unknown_version_witness :
    rollbackToVersion "java-best-practices" "2024-07" 5
      { rules := [("rules/java-best-practices.md", "active content")],
        archiveFiles := [{ name := "java-best-practices-2024-06-0.md",
                           content := "june content", mtime := 0 }],
        history := [], deployments := [] } =
      ({ rules := [("rules/java-best-practices.md", "active content")],
         archiveFiles := [{ name := "java-best-practices-2024-06-0.md",
                            content := "june content", mtime := 0 }],
         history := [], deployments := [] },
       [], some RollbackError.versionNotFound) := by
  apply rollback_unknown_version_fails_unchanged
  intro f hf
  simp only [List.mem_singleton] at hf
  subst hf
  decide

theorem clamp_eq_of_nonneg (x y : ℚ) (h : 0 ≤ x) (hxy : x = y) :
    min x 1 = max 0 (min y 1) := by
  subst hxy
  rw [max_eq_right (le_min h zero_le_one)]

set_option maxHeartbeats 2000000 in
/-- C6: `calculateUpdatePriority` computes exactly the documented reference
formula: the weighted sum of the normalized, capped sub-signals over the
weights of the available signals, clamped to the interval from 0 to 1, with
the flat neutral 0.3 fallback when no signal contributed.  Missing signals
(a GitHub or Stack Overflow volume of 0) contribute 0 to both the numerator
and the normalization denominator. -/
theorem calculateUpdatePriority_eq_spec (t : TrendsInput) :
    calculateUpdatePriority t = specUpdatePriority t := by
  have ha0 : (0:ℚ) ≤ min ((t.totalRepos : ℚ) / 10000) 1 :=
    le_min (by positivity) zero_le_one
  have hb0 : (0:ℚ) ≤ min ((t.totalQuestions : ℚ) / 1000) 1 :=
    le_min (by positivity) zero_le_one
  have hg0 : (0:ℚ) ≤ max 0 (min ((t.weeklyGrowth : ℚ) / 20) 1) :=
    le_max_left _ _
  unfold calculateUpdatePriority specUpdatePriority
  by_cases hr : t.totalRepos > 0 <;> by_cases hq : t.totalQuestions > 0 <;>
    by_cases hbk : t.breakingChangesCount > 0 <;>
    simp only [hr, hq, hbk, if_true, if_false, ite_true, ite_false] <;>
    split_ifs with hf hd <;>
    first
      | (norm_num at hf; done)
      | (norm_num at hd; done)
      | (refine clamp_eq_of_nonneg _ _ (div_nonneg ?_ (by norm_num)) (by ring)
         repeat' apply add_nonneg
         all_goals first
           | exact mul_nonneg ha0 (by norm_num)
           | exact mul_nonneg hb0 (by norm_num)
           | exact mul_nonneg hg0 (by norm_num)
           | norm_num)

theorem addChannel_invariant {subs : List String} {c : String}
    (h : SubsInvariant subs) (hc : c ∈ validChannels) :
    SubsInvariant (addChannel subs c) := by
  obtain ⟨hne, hnd, hsub⟩ := h
  unfold addChannel
  split_ifs with hmem
  · exact ⟨hne, hnd, hsub⟩
  · refine ⟨by simp, ?_, ?_⟩
    · simp [List.nodup_append, hnd, hmem]
    · intro x hx
      rcases List.mem_append.mp hx with hx | hx
      · exact hsub x hx
      · rw [List.mem_singleton] at hx
        subst hx
        exact hc

theorem handleSubscription_invariant :
    ∀ (channels subs : List String), SubsInvariant subs →
      SubsInvariant (handleSubscription subs channels) := by
  intro channels
  induction channels with
  | nil => intro subs h; exact h
  | cons c rest ih =>
    intro subs h
    show SubsInvariant (handleSubscription
      (if c ∈ validChannels then addChannel subs c else subs) rest)
    split_ifs with hc
    · exact ih _ (addChannel_invariant h hc)
    · exact ih _ h

theorem eraseFold_nodup_subset (channels : List String) :
    ∀ subs : List String, subs.Nodup →
      (channels.foldl (fun s c => s.erase c) subs).Nodup
      ∧ ∀ x ∈ channels.foldl (fun s c => s.erase c) subs, x ∈ subs := by
  induction channels with
  | nil => intro subs h; exact ⟨h, fun x hx => hx⟩
  | cons c rest ih =>
    intro subs h
    simp only [List.foldl_cons]
    have h2 := ih (subs.erase c) (List.Nodup.erase c h)
    exact ⟨h2.1, fun x hx => List.erase_subset _ _ (h2.2 x hx)⟩

theorem handleUnsubscription_invariant (channels subs : List String)
    (h : SubsInvariant subs) :
    SubsInvariant (handleUnsubscription subs channels) := by
  obtain ⟨hne, hnd, hsub⟩ := h
  have hh := eraseFold_nodup_subset channels subs hnd
  unfold handleUnsubscription
  dsimp only
  split_ifs with he
  · refine ⟨by simp, by simp, ?_⟩
    intro x hx
    rw [List.mem_singleton] at hx
    subst hx
    simp [validChannels]
  · have hne2 : channels.foldl (fun s c => s.erase c) subs ≠ [] := by
      intro hcon
      exact he (by rw [hcon]; rfl)
    exact ⟨hne2, hh.1, fun x hx => hsub x (hh.2 x hx)⟩

theorem applySubMsgs_invariant (msgs : List SubMsg) :
    ∀ subs, SubsInvariant subs → SubsInvariant (applySubMsgs msgs subs) := by
  induction msgs with
  | nil => intro subs h; exact h
  | cons m rest ih =>
    intro subs h
    cases m with
    | subscribe cs => exact ih _ (handleSubscription_invariant cs subs h)
    | unsubscribe cs => exact ih _ (handleUnsubscription_invariant cs subs h)

theorem eraseFold_self :
    ∀ l : List String, l.Nodup → l.foldl (fun s c => s.erase c) l = [] := by
  intro l
  induction l with
  | nil => intro _; rfl
  | cons c rest ih =>
    intro h
    simp only [List.foldl_cons, List.erase_cons_head]
    exact ih (List.Nodup.of_cons h)

theorem handleUnsubscription_all (subs : List String) (hnd : subs.Nodup) :
    handleUnsubscription subs subs = ["general"] := by
  unfold handleUnsubscription
  rw [eraseFold_self subs hnd]
  rfl

theorem handleSubscription_invalid_ignored (subs : List String) :
    handleSubscription subs ["bogus-channel"] = subs := by
  simp only [handleSubscription, List.foldl_cons, List.foldl_nil]
  rw [if_neg (by decide)]

/-- C10: starting from the default `general` subscription, after any sequence
of subscribe and unsubscribe messages the subscription set of a client is a
non-empty subset of the five valid channels; a subscribe request naming a
channel outside the valid set leaves the set unchanged (silently ignored),
and unsubscribing from every currently held channel leaves exactly the
automatic `general` subscription. -/
theorem notification_subscriptions_invariant (msgs : List SubMsg) :
    applySubMsgs msgs initialSubs ≠ []
    ∧ (∀ c ∈ applySubMsgs msgs initialSubs, c ∈ validChannels)
    ∧ applySubMsgs (msgs ++ [SubMsg.subscribe ["bogus-channel"]]) initialSubs =
        applySubMsgs msgs initialSubs
    ∧ applySubMsgs (msgs ++ [SubMsg.unsubscribe (applySubMsgs msgs initialSubs)])
        initialSubs = ["general"] := by
  have hinit : SubsInvariant initialSubs := by
    refine ⟨by simp [initialSubs], by simp [initialSubs], ?_⟩
    intro c hc
    simp only [initialSubs, List.mem_singleton] at hc
    subst hc
    simp [validChannels]
  have hinv := applySubMsgs_invariant msgs initialSubs hinit
  have happ : ∀ m : SubMsg, applySubMsgs (msgs ++ [m]) initialSubs =
      applySubMsg (applySubMsgs msgs initialSubs) m := by
    intro m
    simp [applySubMsgs, List.foldl_append]
  refine ⟨hinv.1, hinv.2.2, ?_, ?_⟩
  · rw [happ]
    exact handleSubscription_invalid_ignored _
  · rw [happ]
    exact handleUnsubscription_all _ hinv.2.1

end AiRules
